import Mathlib

/-
  Verification of the code-stats reporting core of the repository
  (src/helix-term/src/codestats.rs together with the handler wiring in
  src/helix-view/src/handlers.rs and src/helix-term/src/handlers.rs).

  Shallow embedding conventions:
  - The global XPS map (HashMap String u32 behind a mutex) is an association
    list with distinct keys; u32 addition wraps modulo 2 ^ 32, matching the
    release-mode semantics of the Rust += on u32.
  - DateTime values (chrono DateTime Local) are naturals counting
    milliseconds; chrono Duration num_seconds truncates to whole seconds,
    which for the nonnegative durations that occur here is division by 1000.
    When now is earlier than last_send chrono yields a negative number of
    seconds, and the comparison with 10 is false either way, so truncated
    Nat subtraction gives the same verdict.
  - The HTTP exchange of finish_debounce is represented by the HttpPost
    value it would issue; the response, which the code only logs, is an
    ignored boolean argument.
  - The expect failure on a missing trigger in finish_debounce is the none
    result of the embedded function.
-/

set_option linter.unusedVariables false

namespace CodeStats

/-- The global XPS counter map, HashMap String u32, as an association list
with pairwise distinct keys in insertion order. -/
abbrev XpMap := List (String × Nat)

/-- The modulus of u32 machine arithmetic. -/
def U32MOD : Nat := 2 ^ 32

/-- From codestats.rs, add_xp: XPS.lock().unwrap().entry(language).or_insert(0) += diff.
A missing key is inserted with value 0 and then diff is added; u32 addition
wraps modulo 2 ^ 32. -/
def add_xp (xps : XpMap) (language : String) (diff : Nat) : XpMap :=
  match xps with
  | [] => [(language, (0 + diff) % U32MOD)]
  | (l, x) :: rest =>
    if l = language then (l, (x + diff) % U32MOD) :: rest
    else (l, x) :: add_xp rest language diff

/-- From codestats.rs, xp_empty: XPS.lock().unwrap().is_empty(), that is,
whether the map currently holds no entry at all. -/
def xp_empty (xps : XpMap) : Bool := xps.isEmpty

/-- HashMap lookup for the counter of one language. -/
def lookupXp : XpMap → String → Option Nat
  | [], _ => none
  | (l, x) :: rest, language => if l = language then some x else lookupXp rest language

/-- helix-view codestats events, the three trigger kinds of the handler. -/
inductive CodeStatsEvent where
  | Update
  | ForceSend
  | Cancel
deriving DecidableEq

/-- From codestats.rs, struct Config: the codestats section of the global
configuration, holding the server base URL and the optional API key. -/
structure Config where
  server : String
  key : Option String
deriving DecidableEq

/-- Default Config value: codestats.net with no key. -/
def defaultConfig : Config := { server := "https://codestats.net/", key := none }

/-- The mutable state of CodeStatsHandler that the claims are about: the
pending trigger and the last send timestamp (a DateTime in milliseconds).
The ureq agent and the config handle are environment, passed separately. -/
structure CodeStatsHandler where
  trigger : Option CodeStatsEvent
  last_send : Nat
deriving DecidableEq

/-- chrono Duration num_seconds of a nonnegative duration in milliseconds:
truncation to whole seconds. -/
def numSeconds (ms : Nat) : Nat := ms / 1000

/-- From codestats.rs, CodeStatsHandler should_send:
(now - self.last_send).num_seconds() > 10. -/
def should_send (last_send now : Nat) : Bool :=
  decide (10 < numSeconds (now - last_send))

/-- From codestats.rs, struct CodeStatsPulseXP: one language entry of a pulse. -/
structure CodeStatsPulseXP where
  language : String
  xp : Nat
deriving DecidableEq

/-- From codestats.rs, struct CodeStatsPulse: the JSON body of one pulse. -/
structure CodeStatsPulse where
  coded_at : String
  xps : List CodeStatsPulseXP
deriving DecidableEq

/-- Model of chrono DateTime to_rfc3339: an injective rendering of the
timestamp into a string. Only which instant gets rendered matters for the
claims, not the concrete digits. -/
def to_rfc3339 (now : Nat) : String := toString now

/-- The one HTTPS POST that finish_debounce assembles: the request URL, the
value of the X-API-Token header, and the pulse body. -/
structure HttpPost where
  url : String
  token : String
  body : CodeStatsPulse
deriving DecidableEq

/-- Result of one finish_debounce call: the handler state after the call,
the global XPS map after the call, and the POST performed, if any. -/
structure FlushResult where
  state : CodeStatsHandler
  xps : XpMap
  send : Option HttpPost
deriving DecidableEq

/-- From codestats.rs, CodeStatsHandler finish_debounce. Returns none exactly
when the expect on self.trigger.take() fails because no trigger is set.
Otherwise: the trigger is consumed; with no API key the call returns at once
leaving the map alone; an empty map returns with nothing to send; a
non-forced call within the minimum send interval discards the already
cleared snapshot; else the pulse is built and posted and last_send is set to
now. The resp argument is the outcome of the HTTP exchange, which the code
only logs, so it influences nothing. -/
def finish_debounce (h : CodeStatsHandler) (cfg : Config) (xps : XpMap)
    (now : Nat) (resp : Bool) : Option FlushResult :=
  match h.trigger with
  | none => none
  | some trigger =>
    let h1 : CodeStatsHandler := { h with trigger := none }
    match cfg.key with
    | none => some { state := h1, xps := xps, send := none }
    | some key =>
      if xps.isEmpty then some { state := h1, xps := xps, send := none }
      else
        let local_xps := xps
        if should_send h1.last_send now = false ∧ trigger ≠ CodeStatsEvent.ForceSend then
          some { state := h1, xps := [], send := none }
        else
          let pulse : CodeStatsPulse :=
            { coded_at := to_rfc3339 now,
              xps := local_xps.map fun p => { language := p.1, xp := p.2 } }
          some { state := { h1 with last_send := now },
                 xps := [],
                 send := some { url := cfg.server ++ "api/my/pulses", token := key,
                                body := pulse } }

/-- From codestats.rs, CodeStatsHandler handle_event (the AsyncHook impl):
Update stores the trigger and returns the new deadline now + 10 seconds,
ForceSend stores the trigger and runs finish_debounce synchronously,
Cancel clears the trigger. The timeout argument (the previous deadline) is
ignored by all three arms, exactly as in the source. The returned pair is
the flush effect (state, map, post) and the new deadline. -/
def handle_event (h : CodeStatsHandler) (cfg : Config) (xps : XpMap)
    (event : CodeStatsEvent) (timeout : Option Nat) (now : Nat) (resp : Bool) :
    Option (FlushResult × Option Nat) :=
  match event with
  | CodeStatsEvent.Update =>
    some ({ state := { h with trigger := some CodeStatsEvent.Update },
            xps := xps, send := none },
          some (now + 10000))
  | CodeStatsEvent.ForceSend =>
    match finish_debounce { h with trigger := some CodeStatsEvent.ForceSend }
        cfg xps now resp with
    | none => none
    | some r => some (r, none)
  | CodeStatsEvent.Cancel =>
    some ({ state := { h with trigger := none }, xps := xps, send := none }, none)

/-- Modelled from the spec: the single-consumer AsyncHook driver loop of the
helix_event crate, which is not under src. Per spec section 4.2 and 5, the
driver stores the deadline returned by handle_event, and timer expiry with
no intervening Cancel invokes the flush; firing clears the stored deadline. -/
structure DriverState where
  handler : CodeStatsHandler
  xps : XpMap
  deadline : Option Nat
deriving DecidableEq

/-- Modelled from the spec: one step of the driver loop is either receiving
one event from the channel or the timer firing. -/
inductive DriverAction where
  | Recv (e : CodeStatsEvent)
  | TimerFire
deriving DecidableEq

/-- Modelled from the spec: one transition of the driver loop at wall time
now. Receiving an event runs handle_event and stores the returned deadline;
a timer fire with a pending deadline runs finish_debounce and clears the
deadline; a timer fire with no deadline pending changes nothing. none is
the expect failure inside finish_debounce. -/
def driverStep (cfg : Config) (s : DriverState) (a : DriverAction) (now : Nat)
    (resp : Bool) : Option (DriverState × Option HttpPost) :=
  match a with
  | DriverAction.Recv e =>
    match handle_event s.handler cfg s.xps e s.deadline now resp with
    | none => none
    | some (r, dl) => some ({ handler := r.state, xps := r.xps, deadline := dl }, r.send)
  | DriverAction.TimerFire =>
    match s.deadline with
    | none => some (s, none)
    | some _ =>
      match finish_debounce s.handler cfg s.xps now resp with
      | none => none
      | some r => some ({ handler := r.state, xps := r.xps, deadline := none }, r.send)

/-- Modelled from the spec: running the driver loop over a list of actions,
each tagged with its wall time and the outcome of any HTTP exchange it
performs, collecting every POST issued along the way. -/
def driverRun (cfg : Config) (s : DriverState) :
    List (DriverAction × Nat × Bool) → Option (DriverState × List HttpPost)
  | [] => some (s, [])
  | (a, now, resp) :: rest =>
    match driverStep cfg s a now resp with
    | none => none
    | some (s1, post) =>
      match driverRun cfg s1 rest with
      | none => none
      | some (sf, posts) => some (sf, post.toList ++ posts)

/-- The driver invariant: whenever a deadline is pending, a trigger is set. -/
def DriverInv (s : DriverState) : Prop :=
  s.deadline.isSome = true → s.handler.trigger.isSome = true

/-- Language metadata of a document, restricted to the two fields that
resolve_language reads from the helix-core LanguageConfiguration. -/
structure LanguageConfiguration where
  language_id : String
  codestats_language : Option String
deriving DecidableEq

/-- A document, restricted to the language metadata resolve_language reads. -/
structure Document where
  language : Option LanguageConfiguration
deriving DecidableEq

/-- From codestats.rs, resolve_language: the mapped codestats name when the
document has language metadata carrying one, none when the metadata has no
codestats mapping, and the literal Plain text default when the document has
no language metadata at all. -/
def resolve_language (doc : Document) : Option String :=
  match doc.language with
  | some raw_language =>
    match raw_language.codestats_language with
    | some language => some language
    | none => none
  | none => some "Plain text"

/-- Folding a list of add_xp calls, in order, over a starting map. -/
def runIncrements (xps : XpMap) : List (String × Nat) → XpMap
  | [] => xps
  | (language, diff) :: rest => runIncrements (add_xp xps language diff) rest

/-- The mathematical sum of all amounts a call list increments one language by. -/
def sumFor : List (String × Nat) → String → Nat
  | [], _ => 0
  | (l, a) :: rest, language => (if l = language then a else 0) + sumFor rest language

/-- The payload entry list built from a snapshot. -/
def pulseEntries (xps : XpMap) : List CodeStatsPulseXP :=
  xps.map fun p => { language := p.1, xp := p.2 }

theorem flush_no_trigger (ls : Nat) (cfg : Config) (xps : XpMap) (now : Nat) (resp : Bool) :
    finish_debounce ⟨none, ls⟩ cfg xps now resp = none := rfl

theorem flush_no_key (t : CodeStatsEvent) (ls : Nat) (srv : String) (xps : XpMap)
    (now : Nat) (resp : Bool) :
    finish_debounce ⟨some t, ls⟩ ⟨srv, none⟩ xps now resp
      = some ⟨⟨none, ls⟩, xps, none⟩ := rfl

theorem flush_empty (t : CodeStatsEvent) (ls : Nat) (srv k : String)
    (now : Nat) (resp : Bool) :
    finish_debounce ⟨some t, ls⟩ ⟨srv, some k⟩ [] now resp
      = some ⟨⟨none, ls⟩, [], none⟩ := rfl

theorem isEmpty_false_of_ne_nil {xps : XpMap} (hne : xps ≠ []) : xps.isEmpty = false := by
  cases xps with
  | nil => exact absurd rfl hne
  | cons a l => rfl

theorem flush_rate_limited (t : CodeStatsEvent) (ls : Nat) (srv k : String) (xps : XpMap)
    (now : Nat) (resp : Bool) (hne : xps ≠ [])
    (hs : should_send ls now = false) (ht : t ≠ CodeStatsEvent.ForceSend) :
    finish_debounce ⟨some t, ls⟩ ⟨srv, some k⟩ xps now resp
      = some ⟨⟨none, ls⟩, [], none⟩ := by
  simp [finish_debounce, isEmpty_false_of_ne_nil hne, hs, ht]

theorem flush_send (t : CodeStatsEvent) (ls : Nat) (srv k : String) (xps : XpMap)
    (now : Nat) (resp : Bool) (hne : xps ≠ [])
    (hgo : should_send ls now = true ∨ t = CodeStatsEvent.ForceSend) :
    finish_debounce ⟨some t, ls⟩ ⟨srv, some k⟩ xps now resp
      = some ⟨⟨none, now⟩, [],
              some ⟨srv ++ "api/my/pulses", k, ⟨to_rfc3339 now, pulseEntries xps⟩⟩⟩ := by
  rcases hgo with hs | hforce
  · simp [finish_debounce, isEmpty_false_of_ne_nil hne, hs, pulseEntries]
  · subst hforce
    simp [finish_debounce, isEmpty_false_of_ne_nil hne, pulseEntries]

theorem should_send_false_of_le {ls now : Nat} (h10 : numSeconds (now - ls) ≤ 10) :
    should_send ls now = false := by
  rw [should_send, decide_eq_false_iff_not]
  omega

theorem should_send_true_of_lt {ls now : Nat} (h10 : 10 < numSeconds (now - ls)) :
    should_send ls now = true := by
  rw [should_send, decide_eq_true_eq]
  exact h10

theorem lookup_add_xp (m : XpMap) (language l : String) (diff : Nat) :
    lookupXp (add_xp m language diff) l
      = if l = language
        then some (((lookupXp m language).getD 0 + diff) % U32MOD)
        else lookupXp m l := by
  induction m with
  | nil =>
    by_cases h : l = language
    · subst h
      simp [add_xp, lookupXp]
    · simp [add_xp, lookupXp, h, Ne.symm h]
  | cons hd tl ih =>
    obtain ⟨l0, x⟩ := hd
    by_cases h0 : l0 = language
    · subst h0
      by_cases h : l = l0
      · subst h
        simp [add_xp, lookupXp]
      · simp [add_xp, lookupXp, h, Ne.symm h]
    · by_cases h1 : l0 = l
      · subst h1
        simp [add_xp, lookupXp, h0, Ne.symm h0]
      · simp only [add_xp, if_neg h0, lookupXp, if_neg h1, ih]

theorem sumFor_eq_zero_of_any_eq_false {rest : List (String × Nat)} {l : String}
    (h : rest.any (fun c => c.1 == l) = false) : sumFor rest l = 0 := by
  induction rest with
  | nil => rfl
  | cons c r ih =>
    obtain ⟨cl, ca⟩ := c
    simp only [List.any_cons, Bool.or_eq_false_iff, beq_eq_false_iff_ne, ne_eq] at h
    simp [sumFor, h.1, ih h.2]

theorem lookup_runIncrements (calls : List (String × Nat)) :
    ∀ (m : XpMap) (l : String),
      lookupXp (runIncrements m calls) l
        = if calls.any (fun c => c.1 == l)
          then some (((lookupXp m l).getD 0 + sumFor calls l) % U32MOD)
          else lookupXp m l := by
  induction calls with
  | nil =>
    intro m l
    simp [runIncrements, sumFor]
  | cons c rest ih =>
    intro m l
    obtain ⟨cl, ca⟩ := c
    rw [show runIncrements m ((cl, ca) :: rest) = runIncrements (add_xp m cl ca) rest from rfl]
    rw [ih]
    by_cases hcl : cl = l
    · subst hcl
      rcases Bool.eq_false_or_eq_true (rest.any (fun c => c.1 == cl)) with hrest | hrest
      · rw [hrest, if_pos rfl]
        rw [lookup_add_xp, if_pos rfl]
        rw [if_pos (by simp [List.any_cons])]
        simp only [Option.getD_some, sumFor, if_pos rfl]
        rw [Nat.mod_add_mod, Nat.add_assoc]
        simp
      · rw [hrest, if_neg (by simp)]
        rw [lookup_add_xp, if_pos rfl]
        rw [if_pos (by simp [List.any_cons])]
        simp only [sumFor, if_pos rfl]
        rw [sumFor_eq_zero_of_any_eq_false hrest]
        simp
    · have hbeq : (cl == l) = false := by
        simp [hcl]
      have hany : (((cl, ca) :: rest).any (fun c => c.1 == l))
          = rest.any (fun c => c.1 == l) := by
        simp [List.any_cons, hbeq]
      have hsum : sumFor ((cl, ca) :: rest) l = sumFor rest l := by
        simp [sumFor, hcl]
      have hlx : lookupXp (add_xp m cl ca) l = lookupXp m l := by
        rw [lookup_add_xp, if_neg (fun h => hcl h.symm)]
      rw [hlx, hany, hsum]

theorem flush_some (t : CodeStatsEvent) (ls : Nat) (cfg : Config) (xps : XpMap)
    (now : Nat) (resp : Bool) :
    ∃ r, finish_debounce ⟨some t, ls⟩ cfg xps now resp = some r := by
  obtain ⟨srv, key⟩ := cfg
  cases key with
  | none => exact ⟨_, flush_no_key t ls srv xps now resp⟩
  | some k =>
    by_cases hxe : xps = []
    · subst hxe
      exact ⟨_, flush_empty t ls srv k now resp⟩
    · rcases Bool.eq_false_or_eq_true (should_send ls now) with hss | hss
      · exact ⟨_, flush_send t ls srv k xps now resp hxe (Or.inl hss)⟩
      · by_cases hft : t = CodeStatsEvent.ForceSend
        · exact ⟨_, flush_send t ls srv k xps now resp hxe (Or.inr hft)⟩
        · exact ⟨_, flush_rate_limited t ls srv k xps now resp hxe hss hft⟩

theorem flush_consumes (h : CodeStatsHandler) (cfg : Config) (xps : XpMap)
    (now : Nat) (resp : Bool) (r : FlushResult)
    (hr : finish_debounce h cfg xps now resp = some r) : r.state.trigger = none := by
  obtain ⟨tr, ls⟩ := h
  cases tr with
  | none =>
    rw [flush_no_trigger] at hr
    cases hr
  | some t =>
    obtain ⟨srv, key⟩ := cfg
    cases key with
    | none =>
      rw [flush_no_key] at hr
      injection hr with hr
      subst hr
      rfl
    | some k =>
      by_cases hxe : xps = []
      · subst hxe
        rw [flush_empty] at hr
        injection hr with hr
        subst hr
        rfl
      · rcases Bool.eq_false_or_eq_true (should_send ls now) with hss | hss
        · rw [flush_send t ls srv k xps now resp hxe (Or.inl hss)] at hr
          injection hr with hr
          subst hr
          rfl
        · by_cases hft : t = CodeStatsEvent.ForceSend
          · rw [flush_send t ls srv k xps now resp hxe (Or.inr hft)] at hr
            injection hr with hr
            subst hr
            rfl
          · rw [flush_rate_limited t ls srv k xps now resp hxe hss hft] at hr
            injection hr with hr
            subst hr
            rfl

theorem driverStep_some (cfg : Config) (s : DriverState) (a : DriverAction) (now : Nat)
    (resp : Bool) (hs : DriverInv s) :
    ∃ s1 post, driverStep cfg s a now resp = some (s1, post) ∧ DriverInv s1 := by
  obtain ⟨⟨tr, ls⟩, sxps, dl⟩ := s
  cases a with
  | Recv e =>
    cases e with
    | Update => exact ⟨_, _, rfl, fun _ => rfl⟩
    | ForceSend =>
      obtain ⟨r, hr⟩ := flush_some CodeStatsEvent.ForceSend ls cfg sxps now resp
      refine ⟨⟨r.state, r.xps, none⟩, r.send, ?_, fun hdl => by simp at hdl⟩
      simp [driverStep, handle_event, hr]
    | Cancel => exact ⟨_, _, rfl, fun hdl => by simp at hdl⟩
  | TimerFire =>
    cases dl with
    | none => exact ⟨_, _, rfl, hs⟩
    | some d =>
      have htr : tr.isSome = true := hs rfl
      obtain ⟨t, ht⟩ := Option.isSome_iff_exists.mp htr
      subst ht
      obtain ⟨r, hr⟩ := flush_some t ls cfg sxps now resp
      refine ⟨⟨r.state, r.xps, none⟩, r.send, ?_, fun hdl => by simp at hdl⟩
      simp [driverStep, hr]

theorem driverRun_some (cfg : Config) :
    ∀ (acts : List (DriverAction × Nat × Bool)) (s : DriverState), DriverInv s →
      ∃ sf posts, driverRun cfg s acts = some (sf, posts) ∧ DriverInv sf := by
  intro acts
  induction acts with
  | nil => exact fun s hs => ⟨s, [], rfl, hs⟩
  | cons act rest ih =>
    intro s hs
    obtain ⟨a, now, resp⟩ := act
    obtain ⟨s1, post, hstep, h1⟩ := driverStep_some cfg s a now resp hs
    obtain ⟨sf, posts, hrun, hf⟩ := ih s1 h1
    exact ⟨sf, post.toList ++ posts, by simp [driverRun, hstep, hrun], hf⟩

theorem driverStep_no_key (srv : String) (s : DriverState) (a : DriverAction) (now : Nat)
    (resp : Bool) (hs : DriverInv s) :
    ∃ s1, driverStep ⟨srv, none⟩ s a now resp = some (s1, none)
      ∧ s1.xps = s.xps ∧ DriverInv s1 := by
  obtain ⟨⟨tr, ls⟩, sxps, dl⟩ := s
  cases a with
  | Recv e =>
    cases e with
    | Update => exact ⟨_, rfl, rfl, fun _ => rfl⟩
    | ForceSend => exact ⟨⟨⟨none, ls⟩, sxps, none⟩, rfl, rfl, fun hdl => by simp at hdl⟩
    | Cancel => exact ⟨_, rfl, rfl, fun hdl => by simp at hdl⟩
  | TimerFire =>
    cases dl with
    | none => exact ⟨_, rfl, rfl, hs⟩
    | some d =>
      have htr : tr.isSome = true := hs rfl
      obtain ⟨t, ht⟩ := Option.isSome_iff_exists.mp htr
      subst ht
      exact ⟨⟨⟨none, ls⟩, sxps, none⟩, rfl, rfl, fun hdl => by simp at hdl⟩

theorem driverRun_no_key (srv : String) :
    ∀ (acts : List (DriverAction × Nat × Bool)) (s : DriverState), DriverInv s →
      ∃ sf, driverRun ⟨srv, none⟩ s acts = some (sf, [])
        ∧ sf.xps = s.xps ∧ DriverInv sf := by
  intro acts
  induction acts with
  | nil => exact fun s hs => ⟨s, rfl, rfl, hs⟩
  | cons act rest ih =>
    intro s hs
    obtain ⟨a, now, resp⟩ := act
    obtain ⟨s1, hstep, hx1, h1⟩ := driverStep_no_key srv s a now resp hs
    obtain ⟨sf, hrun, hxf, hf⟩ := ih s1 h1
    exact ⟨sf, by simp [driverRun, hstep, hrun], by rw [hxf, hx1], hf⟩

theorem driverRun_update_burst (cfg : Config) (resp : Bool) (t : Nat) :
    ∀ (ts : List Nat) (s : DriverState),
      driverRun cfg s
        ((ts ++ [t]).map fun now => (DriverAction.Recv CodeStatsEvent.Update, now, resp))
        = some (⟨⟨some CodeStatsEvent.Update, s.handler.last_send⟩, s.xps,
                 some (t + 10000)⟩, []) := by
  intro ts
  induction ts with
  | nil =>
    intro s
    obtain ⟨⟨tr, ls⟩, sxps, dl⟩ := s
    rfl
  | cons tau ts ih =>
    intro s
    obtain ⟨⟨tr, ls⟩, sxps, dl⟩ := s
    have hstep : driverStep cfg ⟨⟨tr, ls⟩, sxps, dl⟩
        (DriverAction.Recv CodeStatsEvent.Update) tau resp
        = some (⟨⟨some CodeStatsEvent.Update, ls⟩, sxps, some (tau + 10000)⟩, none) := rfl
    simp only [List.cons_append, List.map_cons, driverRun, hstep, List.append_eq]
    rw [ih ⟨⟨some CodeStatsEvent.Update, ls⟩, sxps, some (tau + 10000)⟩]
    rfl

/-- C3, counterexample: with u32 wrap-around, two increments of 2147483648 to
the same language leave a counter of 0, while the exact sum of the amounts is
4294967296, so the snapshot does not map the language to the exact sum. -/
theorem C3_counterexample :
    lookupXp (runIncrements [] [("Rust", 2147483648), ("Rust", 2147483648)]) "Rust" = some 0
    ∧ sumFor [("Rust", 2147483648), ("Rust", 2147483648)] "Rust" = 4294967296 :=
  ⟨rfl, rfl⟩

/-- C3, amended: starting from the empty map, each increment adds its amount
to the counter of its language with u32 wrap-around, creating the entry on
first use, so the map built by a call list holds, for exactly the languages
that occur in the list, the sum of their amounts modulo 2 ^ 32 (the exact
sum whenever it stays below 2 ^ 32); and every flush that takes the snapshot
(key present) leaves the map empty afterwards. -/
theorem C3_increment_accounting :
    (∀ (calls : List (String × Nat)) (l : String),
      lookupXp (runIncrements [] calls) l
        = if calls.any (fun c => c.1 == l)
          then some (sumFor calls l % U32MOD)
          else none)
    ∧ (∀ (t : CodeStatsEvent) (ls : Nat) (srv k : String) (xps : XpMap)
        (now : Nat) (resp : Bool) (r : FlushResult),
        finish_debounce ⟨some t, ls⟩ ⟨srv, some k⟩ xps now resp = some r → r.xps = []) := by
  constructor
  · intro calls l
    have h := lookup_runIncrements calls [] l
    simpa [lookupXp] using h
  · intro t ls srv k xps now resp r hr
    by_cases hxe : xps = []
    · subst hxe
      rw [flush_empty] at hr
      injection hr with hr
      subst hr
      rfl
    · rcases Bool.eq_false_or_eq_true (should_send ls now) with hss | hss
      · rw [flush_send t ls srv k xps now resp hxe (Or.inl hss)] at hr
        injection hr with hr
        subst hr
        rfl
      · by_cases hft : t = CodeStatsEvent.ForceSend
        · rw [flush_send t ls srv k xps now resp hxe (Or.inr hft)] at hr
          injection hr with hr
          subst hr
          rfl
        · rw [flush_rate_limited t ls srv k xps now resp hxe hss hft] at hr
          injection hr with hr
          subst hr
          rfl

/-- C3, witness: a flush that consumes the one-entry snapshot leaves the map
empty. -/
theorem C3_increment_accounting_witness :
    (⟨⟨none, 20000⟩, [],
      some ⟨"s" ++ "api/my/pulses", "k",
            ⟨to_rfc3339 20000, pulseEntries [("Rust", 1)]⟩⟩⟩ : FlushResult).xps = [] :=
  C3_increment_accounting.2 CodeStatsEvent.Update 0 "s" "k" [("Rust", 1)] 20000 true
    ⟨⟨none, 20000⟩, [],
     some ⟨"s" ++ "api/my/pulses", "k", ⟨to_rfc3339 20000, pulseEntries [("Rust", 1)]⟩⟩⟩
    (by rfl)

/-- C7, counterexample: incrementing a language by 0 creates an entry with
count 0, after which xp_empty reports false although no language has a
nonzero counter; the claim requires it to still report empty. -/
theorem C7_counterexample :
    add_xp [] "Rust" 0 = [("Rust", 0)] ∧ xp_empty [("Rust", 0)] = false :=
  ⟨rfl, rfl⟩

/-- C7, amended: xp_empty is true exactly when the map holds no entry at all;
on maps all of whose entries are positive, as produced by the repository,
which only ever increments by 1, this coincides with no language having a
nonzero counter, but a zero-count entry makes xp_empty report false. -/
theorem C7_xp_empty_amended :
    (∀ xps : XpMap, xp_empty xps = true ↔ xps = [])
    ∧ (∀ xps : XpMap, (∀ p ∈ xps, 0 < p.2) →
        (xp_empty xps = true ↔ ∀ l v, lookupXp xps l = some v → v = 0)) := by
  have hbase : ∀ xps : XpMap, xp_empty xps = true ↔ xps = [] := by
    intro xps
    cases xps with
    | nil => simp [xp_empty]
    | cons a l => simp [xp_empty]
  refine ⟨hbase, fun xps hpos => ?_⟩
  constructor
  · intro he l v hv
    rw [hbase] at he
    subst he
    exact absurd hv (by simp [lookupXp])
  · intro hz
    cases xps with
    | nil => rfl
    | cons p rest =>
      obtain ⟨l0, x⟩ := p
      have hx : 0 < x := hpos (l0, x) (by simp)
      have h0 : x = 0 := hz l0 x (by simp [lookupXp])
      omega

/-- C7, witness: on a map with one positive entry, xp_empty being true is
equivalent to every stored counter being zero, and both sides are false. -/
theorem C7_xp_empty_amended_witness :
    xp_empty [("Rust", 1)] = true ↔
      ∀ l v, lookupXp [("Rust", 1)] l = some v → v = 0 :=
  C7_xp_empty_amended.2 [("Rust", 1)] (by decide)

/-- C1, counterexample: with trigger Update, key set, non-empty snapshot,
last_send 0 and now exactly 10 seconds later, the claim says the send
proceeds; the code compares num_seconds strictly against 10, so it returns
with no send, and the cleared snapshot stays discarded. -/
theorem C1_counterexample :
    finish_debounce ⟨some CodeStatsEvent.Update, 0⟩ ⟨"https://codestats.net/", some "k"⟩
      [("Rust", 1)] 10000 true
      = some ⟨⟨none, 0⟩, [], none⟩ := by
  rfl

/-- C1, amended: for a consumed non-ForceSend trigger with a key and a
non-empty snapshot, a flush within at most 10 whole elapsed seconds (so in
particular any elapsed time below 10 seconds, and also exactly 10) returns
with no send, leaving the discarded snapshot cleared and last_send
untouched; once strictly more than 10 whole seconds elapsed, the send
proceeds. -/
theorem C1_rate_limit_amended (t : CodeStatsEvent) (ls : Nat) (srv k : String)
    (xps : XpMap) (now : Nat) (resp : Bool)
    (hf : t ≠ CodeStatsEvent.ForceSend) (hne : xps ≠ []) :
    (numSeconds (now - ls) ≤ 10 →
      finish_debounce ⟨some t, ls⟩ ⟨srv, some k⟩ xps now resp
        = some ⟨⟨none, ls⟩, [], none⟩)
    ∧ (10 < numSeconds (now - ls) →
      finish_debounce ⟨some t, ls⟩ ⟨srv, some k⟩ xps now resp
        = some ⟨⟨none, now⟩, [],
                some ⟨srv ++ "api/my/pulses", k, ⟨to_rfc3339 now, pulseEntries xps⟩⟩⟩) :=
  ⟨fun h10 =>
      flush_rate_limited t ls srv k xps now resp hne (should_send_false_of_le h10) hf,
   fun h10 =>
      flush_send t ls srv k xps now resp hne (Or.inl (should_send_true_of_lt h10))⟩

/-- C1, witness: a non-forced flush 11 seconds after the last send, with key
and snapshot, proceeds to the send. -/
theorem C1_rate_limit_amended_witness :
    finish_debounce ⟨some CodeStatsEvent.Update, 0⟩ ⟨"s", some "k"⟩ [("Rust", 1)] 11000 true
      = some ⟨⟨none, 11000⟩, [],
              some ⟨"s" ++ "api/my/pulses", "k",
                    ⟨to_rfc3339 11000, pulseEntries [("Rust", 1)]⟩⟩⟩ :=
  (C1_rate_limit_amended CodeStatsEvent.Update 0 "s" "k" [("Rust", 1)] 11000 true
    (by decide) (by decide)).2 (by decide)

/-- C2, counterexample: a ForceSend flush at zero elapsed time since the last
send, with a key and a non-empty snapshot, performs the POST; the claim says
it must return without sending. ForceSend bypasses the rate-limit check. -/
theorem C2_counterexample :
    finish_debounce ⟨some CodeStatsEvent.ForceSend, 0⟩ ⟨"https://codestats.net/", some "k"⟩
      [("Rust", 1)] 0 true
      = some ⟨⟨none, 0⟩, [],
              some ⟨"https://codestats.net/api/my/pulses", "k",
                    ⟨to_rfc3339 0, [⟨"Rust", 1⟩]⟩⟩⟩ := by
  rfl

/-- C2, amended: a ForceSend flush with a key and a non-empty snapshot always
performs the send, for every elapsed time since last_send; ForceSend
bypasses the debounce window and also the rate-limit check. -/
theorem C2_force_send_bypasses_rate_limit (ls : Nat) (srv k : String) (xps : XpMap)
    (now : Nat) (resp : Bool) (hne : xps ≠ []) :
    finish_debounce ⟨some CodeStatsEvent.ForceSend, ls⟩ ⟨srv, some k⟩ xps now resp
      = some ⟨⟨none, now⟩, [],
              some ⟨srv ++ "api/my/pulses", k, ⟨to_rfc3339 now, pulseEntries xps⟩⟩⟩ :=
  flush_send CodeStatsEvent.ForceSend ls srv k xps now resp hne (Or.inr rfl)

/-- C2, witness: a forced flush with one elapsed second still sends. -/
theorem C2_force_send_bypasses_rate_limit_witness :
    finish_debounce ⟨some CodeStatsEvent.ForceSend, 0⟩ ⟨"s", some "k"⟩ [("Go", 2)] 1000 true
      = some ⟨⟨none, 1000⟩, [],
              some ⟨"s" ++ "api/my/pulses", "k",
                    ⟨to_rfc3339 1000, pulseEntries [("Go", 2)]⟩⟩⟩ :=
  C2_force_send_bypasses_rate_limit 0 "s" "k" [("Go", 2)] 1000 true (by decide)

/-- C6: a flush that passes the key, emptiness and rate-limit guards posts to
server ++ api/my/pulses with the X-API-Token header holding the key; the body
carries coded_at rendered from now and exactly the snapshot pairs, in order,
as language and xp entries; the handler afterwards has last_send = now, and
the whole result is independent of the response outcome resp. -/
theorem C6_send_payload (t : CodeStatsEvent) (ls : Nat) (srv k : String) (xps : XpMap)
    (now : Nat) (resp : Bool) (hne : xps ≠ [])
    (hgo : should_send ls now = true ∨ t = CodeStatsEvent.ForceSend) :
    finish_debounce ⟨some t, ls⟩ ⟨srv, some k⟩ xps now resp
      = some ⟨⟨none, now⟩, [],
              some ⟨srv ++ "api/my/pulses", k,
                    ⟨to_rfc3339 now, xps.map fun p => ⟨p.1, p.2⟩⟩⟩⟩ :=
  flush_send t ls srv k xps now resp hne hgo

/-- C6, witness: a two-language snapshot sent 20 seconds after the last send. -/
theorem C6_send_payload_witness :
    finish_debounce ⟨some CodeStatsEvent.Update, 0⟩ ⟨"s", some "k"⟩
      [("Rust", 3), ("Go", 1)] 20000 true
      = some ⟨⟨none, 20000⟩, [],
              some ⟨"s" ++ "api/my/pulses", "k",
                    ⟨to_rfc3339 20000,
                     [("Rust", 3), ("Go", 1)].map fun p => ⟨p.1, p.2⟩⟩⟩⟩ :=
  C6_send_payload CodeStatsEvent.Update 0 "s" "k" [("Rust", 3), ("Go", 1)] 20000 true
    (by decide) (Or.inl (by decide))

/-- C8: resolve_language returns the mapped codestats name when the document
language metadata carries one, none when the metadata exists without a
mapping, and the default Plain text when the document has no language
metadata at all. -/
theorem C8_resolve_language :
    (∀ lid lang, resolve_language ⟨some ⟨lid, some lang⟩⟩ = some lang)
    ∧ (∀ lid, resolve_language ⟨some ⟨lid, none⟩⟩ = none)
    ∧ resolve_language ⟨none⟩ = some "Plain text" :=
  ⟨fun _ _ => rfl, fun _ => rfl, rfl⟩

/-- C10: last_send is left unchanged on each early return of finish_debounce,
namely the missing key, the empty snapshot and the rate-limited non-forced
flush, and in general whenever no POST is issued; it becomes now exactly
when a POST is issued. -/
theorem C10_last_send_frame (t : CodeStatsEvent) (ls : Nat) (srv k : String)
    (xps : XpMap) (now : Nat) (resp : Bool) :
    (finish_debounce ⟨some t, ls⟩ ⟨srv, none⟩ xps now resp
        = some ⟨⟨none, ls⟩, xps, none⟩)
    ∧ (finish_debounce ⟨some t, ls⟩ ⟨srv, some k⟩ [] now resp
        = some ⟨⟨none, ls⟩, [], none⟩)
    ∧ (should_send ls now = false → t ≠ CodeStatsEvent.ForceSend → xps ≠ [] →
        finish_debounce ⟨some t, ls⟩ ⟨srv, some k⟩ xps now resp
          = some ⟨⟨none, ls⟩, [], none⟩)
    ∧ (∀ cfg r, finish_debounce ⟨some t, ls⟩ cfg xps now resp = some r →
        (r.send = none → r.state.last_send = ls)
        ∧ (r.send.isSome = true → r.state.last_send = now)) := by
  refine ⟨flush_no_key t ls srv xps now resp, flush_empty t ls srv k now resp,
    fun hs hf hne => flush_rate_limited t ls srv k xps now resp hne hs hf, ?_⟩
  intro cfg r hr
  obtain ⟨srv2, key2⟩ := cfg
  cases key2 with
  | none =>
    rw [flush_no_key] at hr
    injection hr with hr
    subst hr
    exact ⟨fun _ => rfl, fun hs => by simp at hs⟩
  | some k2 =>
    by_cases hxe : xps = []
    · subst hxe
      rw [flush_empty] at hr
      injection hr with hr
      subst hr
      exact ⟨fun _ => rfl, fun hs => by simp at hs⟩
    · rcases Bool.eq_false_or_eq_true (should_send ls now) with hss | hss
      · rw [flush_send t ls srv2 k2 xps now resp hxe (Or.inl hss)] at hr
        injection hr with hr
        subst hr
        exact ⟨fun hn => by simp at hn, fun _ => rfl⟩
      · by_cases hft : t = CodeStatsEvent.ForceSend
        · rw [flush_send t ls srv2 k2 xps now resp hxe (Or.inr hft)] at hr
          injection hr with hr
          subst hr
          exact ⟨fun hn => by simp at hn, fun _ => rfl⟩
        · rw [flush_rate_limited t ls srv2 k2 xps now resp hxe hss hft] at hr
          injection hr with hr
          subst hr
          exact ⟨fun _ => rfl, fun hs => by simp at hs⟩

/-- C10, witness: the rate-limited early return 5 seconds after the last send
leaves last_send at 0. -/
theorem C10_last_send_frame_witness :
    finish_debounce ⟨some CodeStatsEvent.Update, 0⟩ ⟨"s", some "k"⟩ [("Rust", 1)] 5000 true
      = some ⟨⟨none, 0⟩, [], none⟩ :=
  (C10_last_send_frame CodeStatsEvent.Update 0 "s" "k" [("Rust", 1)] 5000 true).2.2.1
    (by decide) (by decide) (by decide)

/-- C4: every Update event, in every handler state and under every previously
stored deadline, sets the trigger to Update and returns the deadline
now + 10 seconds, performing no flush; hence a burst of Update events, one
after the other, leaves exactly one scheduled deadline, namely 10 seconds
after the last event of the burst, with no POST issued along the way. -/
theorem C4_update_restarts_timer :
    (∀ (h : CodeStatsHandler) (cfg : Config) (xps : XpMap) (timeout : Option Nat)
       (now : Nat) (resp : Bool),
      handle_event h cfg xps CodeStatsEvent.Update timeout now resp
        = some (⟨⟨some CodeStatsEvent.Update, h.last_send⟩, xps, none⟩, some (now + 10000)))
    ∧ (∀ (cfg : Config) (s : DriverState) (resp : Bool) (ts : List Nat) (t : Nat),
      driverRun cfg s
        ((ts ++ [t]).map fun now => (DriverAction.Recv CodeStatsEvent.Update, now, resp))
        = some (⟨⟨some CodeStatsEvent.Update, s.handler.last_send⟩, s.xps,
                 some (t + 10000)⟩, [])) :=
  ⟨fun _ _ _ _ _ _ => rfl,
   fun cfg s resp ts t => driverRun_update_burst cfg resp t ts s⟩

/-- C5: with no API key, finish_debounce returns immediately, leaving the
counter map untouched and last_send unchanged and issuing no POST; hence any
sequence of driver actions under a key-less configuration issues no POST and
leaves the counter map exactly as it was, so externally accumulated counters
persist. -/
theorem C5_no_key_never_sends :
    (∀ (t : CodeStatsEvent) (ls : Nat) (srv : String) (xps : XpMap) (now : Nat)
       (resp : Bool),
      finish_debounce ⟨some t, ls⟩ ⟨srv, none⟩ xps now resp
        = some ⟨⟨none, ls⟩, xps, none⟩)
    ∧ (∀ (srv : String) (acts : List (DriverAction × Nat × Bool)) (s : DriverState),
        DriverInv s →
        ∃ sf, driverRun ⟨srv, none⟩ s acts = some (sf, []) ∧ sf.xps = s.xps) :=
  ⟨fun t ls srv xps now resp => flush_no_key t ls srv xps now resp,
   fun srv acts s hs =>
     (driverRun_no_key srv acts s hs).elim fun sf hsf => ⟨sf, hsf.1, hsf.2.1⟩⟩

/-- C5, witness: an Update followed by a timer fire under a key-less
configuration posts nothing and preserves the counter map. -/
theorem C5_no_key_never_sends_witness :
    ∃ sf, driverRun ⟨"s", none⟩ ⟨⟨none, 0⟩, [("Rust", 5)], none⟩
        [(DriverAction.Recv CodeStatsEvent.Update, 0, true),
         (DriverAction.TimerFire, 20000, true)]
      = some (sf, [])
    ∧ sf.xps = (⟨⟨none, 0⟩, [("Rust", 5)], none⟩ : DriverState).xps :=
  C5_no_key_never_sends.2 "s"
    [(DriverAction.Recv CodeStatsEvent.Update, 0, true),
     (DriverAction.TimerFire, 20000, true)]
    ⟨⟨none, 0⟩, [("Rust", 5)], none⟩
    (fun hdl => absurd hdl (by simp))

/-- C9: every successful finish_debounce leaves the trigger at none, a
finish_debounce call with no trigger set fails, and from the initial state
of the driver loop (no trigger, no deadline) every sequence of received
events and timer fires keeps the flush failure unreachable, because a
deadline is only ever pending while a trigger is set. -/
theorem C9_trigger_discipline :
    (∀ (h : CodeStatsHandler) (cfg : Config) (xps : XpMap) (now : Nat) (resp : Bool)
       (r : FlushResult),
      finish_debounce h cfg xps now resp = some r → r.state.trigger = none)
    ∧ (∀ (ls : Nat) (cfg : Config) (xps : XpMap) (now : Nat) (resp : Bool),
      finish_debounce ⟨none, ls⟩ cfg xps now resp = none)
    ∧ (∀ (cfg : Config) (ls : Nat) (xps0 : XpMap)
        (acts : List (DriverAction × Nat × Bool)),
      ∃ out, driverRun cfg ⟨⟨none, ls⟩, xps0, none⟩ acts = some out) :=
  ⟨flush_consumes,
   fun ls cfg xps now resp => flush_no_trigger ls cfg xps now resp,
   fun cfg ls xps0 acts =>
     (driverRun_some cfg acts ⟨⟨none, ls⟩, xps0, none⟩
       (fun hdl => absurd hdl (by simp))).elim
       fun sf hsf => hsf.elim fun posts hp => ⟨(sf, posts), hp.1⟩⟩

/-- C9, witness: the flush reached through a ForceSend consumes the trigger. -/
theorem C9_trigger_discipline_witness :
    (⟨⟨none, 0⟩, [("Rust", 1)], none⟩ : FlushResult).state.trigger = none :=
  C9_trigger_discipline.1 ⟨some CodeStatsEvent.Update, 0⟩ ⟨"s", none⟩ [("Rust", 1)] 0 true
    ⟨⟨none, 0⟩, [("Rust", 1)], none⟩ (by rfl)

end CodeStats

